import Mathlib

/-!
Verification of the `eventlib` in-process event dispatch queue
(`src/eventlib/eventlib.c`, `src/eventlib/eventlib.h`).

The C code is embedded shallowly:

* `event_t`, `event_config_t` and `struct event_processor` become Lean
  structures.  C pointers that may be `NULL` become `Option` values, the
  byte payload becomes `Option (List Nat)`, and the internal
  `processor_state_t` enum value is kept as a raw `Nat` (the C `switch`
  in `state_to_string` has a `default:` branch for unrecognised values,
  so the state field must be able to hold arbitrary integers).
* The observable side effects of the four callback hooks (`on_log`,
  `on_event`, `on_filter`, `on_state_change`) are recorded in a
  chronological trace of `trace_entry` values.  The `on_filter` hook is
  kept as a real Lean function (its boolean result steers `push`); the
  other hooks are represented by presence flags plus trace entries.
* Heap behaviour is modelled by a live-allocation counter `live`: every
  successful `calloc`/`strdup`/`malloc` increments it and every `free`
  of a non-null pointer decrements it, so "released, no leak" becomes
  "`live` is unchanged".
* Allocation success or failure is an explicit oracle `alloc_plan`
  passed to `event_processor_push`, mirroring the three allocations the
  C function performs (node, source copy, payload copy).
* The `while` loop of `event_processor_process_all` may not terminate,
  so it is embedded with explicit fuel (`event_processor_process_all`
  returns `none` when the fuel runs out) together with the iteration
  function `iter_process` used to state termination as a proposition.
-/

namespace Eventlib

/-- `event_type_t` from eventlib.h. -/
inductive event_type where
  | data
  | connect
  | disconnect
  | error
  deriving DecidableEq

/-- `event_t` from eventlib.h: a type tag, an optional source string, an
optional payload and its length.  `source`/`data` are the owned copies
stored in the queue node (`source_copy`/`data_copy` in eventlib.c always
coincide with the event's own pointers, so the node collapses to the
event record). -/
structure event_t where
  type : event_type
  source : Option String
  data : Option (List Nat)
  data_len : Nat
  deriving DecidableEq

/-- The distinct log messages `eventlib.c` can format (abstracting the
`printf`-style formatting; the arguments are the formatted values). -/
inductive log_msg where
  | created
  | destroying
  | queue_full (size : Nat)
  | event_filtered
  | event_queued (t : event_type) (queue_size : Nat)
  | not_running
  | processing_event (t : event_type)
  | processed_all (count : Nat)
  | state_change_msg (old_name new_name : String)
  | cleared_events (count : Nat)
  deriving DecidableEq

/-- One observable callback invocation. -/
inductive trace_entry where
  | log (level : String) (msg : log_msg)
  | state_change (old_name new_name : String)
  | consume (e : event_t)
  deriving DecidableEq

def LOG_DEBUG : String := "DEBUG"
def LOG_INFO : String := "INFO"
def LOG_WARN : String := "WARN"

/-- `event_config_t`: the hook function pointers other than `on_filter`
are modelled by presence flags (their only observable effect is the
trace); `on_filter` is a genuine function since its result steers
`push`.  `user_data` is folded into the filter closure. -/
structure event_config where
  name : Option String
  max_queue_size : Nat
  enable_logging : Bool
  has_on_event : Bool
  has_on_log : Bool
  on_filter : Option (event_t → Bool)
  has_on_state_change : Bool

/-- The three named `processor_state_t` values.  The field itself is a
`Nat` so that unrecognised values (the `default:` branch of
`state_to_string`) are representable. -/
def STATE_IDLE : Nat := 0

def STATE_RUNNING : Nat := 1

def STATE_STOPPED : Nat := 2

/-- `struct event_processor`: configuration plus mutable state.  The
linked list `queue_head`/`queue_tail` is embedded as a Lean list with
the head first; `queue_size` is kept as its own field exactly as in C. -/
structure event_processor where
  config : event_config
  state : Nat
  queue : List event_t
  queue_size : Nat
  events_processed : Nat

/-- A processor together with the observable callback trace and the
live-allocation counter. -/
structure World where
  proc : event_processor
  trace : List trace_entry
  live : Nat

/-- `state_to_string` (eventlib.c lines 53-66): the `switch` with a
`default:` branch. -/
def state_to_string (state : Nat) : String :=
  if state = STATE_IDLE then "IDLE"
  else if state = STATE_RUNNING then "RUNNING"
  else if state = STATE_STOPPED then "STOPPED"
  else "UNKNOWN"

/-- `log_message` (eventlib.c lines 69-83): the hook fires only when
logging is enabled and `on_log` is set. -/
def log_message (w : World) (level : String) (msg : log_msg) : World :=
  if w.proc.config.enable_logging && w.proc.config.has_on_log then
    { w with trace := w.trace ++ [trace_entry.log level msg] }
  else w

/-- `change_state` (eventlib.c lines 86-102): no-op on an equal state,
otherwise log first, update the state, then fire `on_state_change`. -/
def change_state (w : World) (new_state : Nat) : World :=
  if w.proc.state = new_state then w
  else
    let old_name := state_to_string w.proc.state
    let new_name := state_to_string new_state
    let w1 := log_message w LOG_INFO (log_msg.state_change_msg old_name new_name)
    let w2 : World := { w1 with proc := { w1.proc with state := new_state } }
    if w2.proc.config.has_on_state_change then
      { w2 with trace := w2.trace ++ [trace_entry.state_change old_name new_name] }
    else w2

/-- Success/failure oracle for the three allocations `push` performs. -/
structure alloc_plan where
  node_ok : Bool
  source_ok : Bool
  data_ok : Bool
  deriving DecidableEq

def good_plan : alloc_plan := { node_ok := true, source_ok := true, data_ok := true }

/-- The source copy (eventlib.c lines 181-185): `strdup` failure leaves
`source_copy` (and hence `event.source`) null. -/
def copy_source (plan : alloc_plan) (source : Option String) : Option String :=
  match source with
  | none => none
  | some s => if plan.source_ok then some s else none

/-- The payload copy (eventlib.c lines 188-196): attempted only when
`data` is non-null and `data_len > 0`; `malloc` failure leaves
`data_copy` null and is tolerated. -/
def copy_data (plan : alloc_plan) (data : Option (List Nat)) (data_len : Nat) :
    Option (List Nat) :=
  match data with
  | none => none
  | some bytes =>
    if data_len > 0 && plan.data_ok then some (bytes.take data_len) else none

/-- The event record built by `push` once the node is allocated
(eventlib.c lines 176-196). -/
def build_event (plan : alloc_plan) (type : event_type) (source : Option String)
    (data : Option (List Nat)) (data_len : Nat) : event_t :=
  { type := type
    source := copy_source plan source
    data := copy_data plan data data_len
    data_len := data_len }

/-- Number of live heap blocks one queue node accounts for: the node
itself plus the source copy and the payload copy when present
(`free(NULL)` is a no-op, so absent copies contribute nothing). -/
def node_allocs (e : event_t) : Nat :=
  1 + (if e.source.isSome then 1 else 0) + (if e.data.isSome then 1 else 0)

/-- The tail-append step of `push` (eventlib.c lines 211-226). -/
def push_enqueue (w : World) (e : event_t) : World × Bool :=
  let p := w.proc
  let w1 : World :=
    { w with
      proc := { p with queue := p.queue ++ [e], queue_size := p.queue_size + 1 } }
  (log_message w1 LOG_DEBUG (log_msg.event_queued e.type (p.queue_size + 1)), true)

/-- `event_processor_push` (eventlib.c lines 154-227) on a non-null
handle: capacity check, node allocation, field copies, optional filter,
enqueue. -/
def event_processor_push (plan : alloc_plan) (w : World) (type : event_type)
    (source : Option String) (data : Option (List Nat)) (data_len : Nat) :
    World × Bool :=
  let p := w.proc
  if p.config.max_queue_size > 0 && decide (p.queue_size ≥ p.config.max_queue_size) then
    (log_message w LOG_WARN (log_msg.queue_full p.queue_size), false)
  else if plan.node_ok = false then
    (w, false)
  else
    let e := build_event plan type source data data_len
    let w1 : World := { w with live := w.live + node_allocs e }
    match p.config.on_filter with
    | some f =>
      if f e = false then
        let w2 := log_message w1 LOG_DEBUG log_msg.event_filtered
        ({ w2 with live := w2.live - node_allocs e }, true)
      else push_enqueue w1 e
    | none => push_enqueue w1 e

/-- `event_processor_process` (eventlib.c lines 230-264) on a non-null
handle: empty-queue check first, then the state gate, then dequeue,
log, consume hook, counter increment and release. -/
def event_processor_process (w : World) : World :=
  match w.proc.queue with
  | [] => w
  | node :: rest =>
    if w.proc.state ≠ STATE_RUNNING then
      log_message w LOG_WARN log_msg.not_running
    else
      let w1 : World :=
        { w with
          proc :=
            { w.proc with queue := rest, queue_size := w.proc.queue_size - 1 } }
      let w2 := log_message w1 LOG_DEBUG (log_msg.processing_event node.type)
      let w3 : World :=
        if w2.proc.config.has_on_event then
          { w2 with trace := w2.trace ++ [trace_entry.consume node] }
        else w2
      let w4 : World :=
        { w3 with
          proc := { w3.proc with events_processed := w3.proc.events_processed + 1 } }
      { w4 with live := w4.live - node_allocs node }

/-- `n` unrolled iterations of the `while (proc->queue_head)` loop body
of `event_processor_process_all`. -/
def iter_process : Nat → World → World
  | 0, w => w
  | n + 1, w => iter_process n (event_processor_process w)

/-- The loop of `event_processor_process_all` with explicit fuel:
`none` means the loop was still running when the fuel ran out. -/
def process_all_go : Nat → World → Nat → Option (World × Nat)
  | 0, w, count => if w.proc.queue = [] then some (w, count) else none
  | fuel + 1, w, count =>
    if w.proc.queue = [] then some (w, count)
    else process_all_go fuel (event_processor_process w) (count + 1)

/-- `event_processor_process_all` (eventlib.c lines 267-283) with
explicit fuel for the unbounded `while` loop. -/
def event_processor_process_all (fuel : Nat) (w : World) : Option World :=
  match process_all_go fuel w 0 with
  | none => none
  | some (w1, count) =>
    some (if count > 0 then log_message w1 LOG_INFO (log_msg.processed_all count) else w1)

/-- The C `while` loop of `event_processor_process_all` terminates iff
some finite number of `process` iterations empties the queue. -/
def process_all_terminates (w : World) : Prop :=
  ∃ n, (iter_process n w).proc.queue = []

/-- `event_processor_get_state` (eventlib.c lines 286-289): `NULL`
handles give the sentinel. -/
def event_processor_get_state : Option event_processor → String
  | none => "INVALID"
  | some p => state_to_string p.state

/-- `event_processor_queue_size` (eventlib.c lines 291-294). -/
def event_processor_queue_size : Option event_processor → Nat
  | none => 0
  | some p => p.queue_size

/-- `event_processor_events_processed` (eventlib.c lines 296-299). -/
def event_processor_events_processed : Option event_processor → Nat
  | none => 0
  | some p => p.events_processed

/-- `event_processor_start` (eventlib.c lines 302-307) on a non-null
handle. -/
def event_processor_start (w : World) : World :=
  change_state w STATE_RUNNING

/-- `event_processor_stop` (eventlib.c lines 309-314) on a non-null
handle. -/
def event_processor_stop (w : World) : World :=
  change_state w STATE_STOPPED

/-- `event_processor_clear_queue` (eventlib.c lines 316-340) on a
non-null handle: frees every node, zeroes the size, logs the count when
nonzero. -/
def event_processor_clear_queue (w : World) : World :=
  let cleared := w.proc.queue.length
  let freed := (w.proc.queue.map node_allocs).sum
  let w1 : World :=
    { w with
      proc := { w.proc with queue := [], queue_size := 0 }
      live := w.live - freed }
  if cleared > 0 then log_message w1 LOG_INFO (log_msg.cleared_events cleared) else w1

/-- The events delivered to the `on_event` consume hook, in order. -/
def consumed (tr : List trace_entry) : List event_t :=
  tr.filterMap fun t =>
    match t with
    | trace_entry.consume e => some e
    | _ => none

/-- Number of `on_state_change` invocations recorded in a trace. -/
def count_state_changes (tr : List trace_entry) : Nat :=
  tr.countP fun t =>
    match t with
    | trace_entry.state_change _ _ => true
    | _ => false

/-- The spec's Event invariant: a present payload has positive length,
and a zero length means no payload. -/
def event_inv (e : event_t) : Prop :=
  (e.data.isSome → e.data_len > 0) ∧ (e.data_len = 0 → e.data = none)

/-- The capacity-rejection condition of `push` (eventlib.c lines
164-165). -/
def cap_full (w : World) : Prop :=
  w.proc.config.max_queue_size > 0 ∧ w.proc.queue_size ≥ w.proc.config.max_queue_size

instance (w : World) : Decidable (cap_full w) := by
  unfold cap_full; infer_instance

/-- One `push` call's worth of caller-supplied arguments. -/
structure push_input where
  type : event_type
  source : Option String
  data : Option (List Nat)
  data_len : Nat
  deriving DecidableEq

/-- A sequence of `push` calls with all allocations succeeding. -/
def push_list (w : World) : List push_input → World
  | [] => w
  | i :: rest =>
    push_list (event_processor_push good_plan w i.type i.source i.data i.data_len).1 rest

/-- `true` iff every push of the sequence returned `true`. -/
def push_list_ok (w : World) : List push_input → Bool
  | [] => true
  | i :: rest =>
    let r := event_processor_push good_plan w i.type i.source i.data i.data_len
    r.2 && push_list_ok r.1 rest

/-- The event a `push_input` turns into when every allocation
succeeds. -/
def built (i : push_input) : event_t :=
  build_event good_plan i.type i.source i.data i.data_len

/-! Concrete instances used to witness the theorems below. -/

/-- A configuration with logging and all presence-style hooks enabled,
no filter and an unbounded queue. -/
def base_config : event_config :=
  { name := none
    max_queue_size := 0
    enable_logging := true
    has_on_event := true
    has_on_log := true
    on_filter := none
    has_on_state_change := true }

/-- A freshly created processor (state `Idle`, empty queue). -/
def w_empty : World :=
  { proc :=
      { config := base_config
        state := STATE_IDLE
        queue := []
        queue_size := 0
        events_processed := 0 }
    trace := []
    live := 0 }

/-- A minimal event with no source and no payload. -/
def e_simple : event_t :=
  { type := event_type.data, source := none, data := none, data_len := 0 }

/-- An `Idle` processor with one queued event. -/
def w_idle_one : World :=
  { proc :=
      { config := base_config
        state := STATE_IDLE
        queue := [e_simple]
        queue_size := 1
        events_processed := 0 }
    trace := []
    live := 1 }

/-- `base_config` with `max_queue_size = 2`. -/
def cap2_config : event_config :=
  { base_config with max_queue_size := 2 }

/-- A `Running` processor whose bounded queue (capacity 2) is full. -/
def w_cap_full : World :=
  { proc :=
      { config := cap2_config
        state := STATE_RUNNING
        queue := [e_simple, e_simple]
        queue_size := 2
        events_processed := 0 }
    trace := []
    live := 2 }

/-- A filter callback that rejects every event. -/
def reject_all : event_t → Bool := fun _ => false

/-- `base_config` with the rejecting filter installed. -/
def filter_config : event_config :=
  { base_config with on_filter := some reject_all }

/-- An `Idle` processor carrying the rejecting filter. -/
def w_filter : World :=
  { proc :=
      { config := filter_config
        state := STATE_IDLE
        queue := []
        queue_size := 0
        events_processed := 0 }
    trace := []
    live := 0 }

/-- An allocation oracle on which the source-copy `strdup` fails. -/
def bad_src_plan : alloc_plan :=
  { node_ok := true, source_ok := false, data_ok := true }

/-- A `Running` processor with an empty queue. -/
def w_running : World :=
  { proc :=
      { config := base_config
        state := STATE_RUNNING
        queue := []
        queue_size := 0
        events_processed := 0 }
    trace := []
    live := 0 }

def srcA : String := "a"

/-- A sample two-push sequence. -/
def sample_inputs : List push_input :=
  [ { type := event_type.data, source := some srcA, data := some [1, 2, 3], data_len := 3 }
  , { type := event_type.connect, source := none, data := none, data_len := 0 } ]

/-! Helper lemmas. -/

theorem log_message_proc (w : World) (level : String) (msg : log_msg) :
    (log_message w level msg).proc = w.proc := by
  unfold log_message
  split <;> rfl

theorem log_message_live (w : World) (level : String) (msg : log_msg) :
    (log_message w level msg).live = w.live := by
  unfold log_message
  split <;> rfl

theorem consumed_append (a b : List trace_entry) :
    consumed (a ++ b) = consumed a ++ consumed b := by
  unfold consumed
  exact List.filterMap_append a b _

theorem consumed_log (level : String) (msg : log_msg) :
    consumed [trace_entry.log level msg] = [] := rfl

theorem consumed_state_change (o n : String) :
    consumed [trace_entry.state_change o n] = [] := rfl

theorem consumed_consume (e : event_t) :
    consumed [trace_entry.consume e] = [e] := rfl

theorem consumed_log_message (w : World) (level : String) (msg : log_msg) :
    consumed (log_message w level msg).trace = consumed w.trace := by
  unfold log_message
  split
  · rw [consumed_append, consumed_log, List.append_nil]
  · rfl

theorem process_empty (w : World) (h : w.proc.queue = []) :
    event_processor_process w = w := by
  unfold event_processor_process
  rw [h]

theorem process_not_running_frame (w : World) (h : w.proc.state ≠ STATE_RUNNING) :
    (event_processor_process w).proc = w.proc ∧
    (event_processor_process w).live = w.live ∧
    consumed (event_processor_process w).trace = consumed w.trace := by
  unfold event_processor_process
  split
  · exact ⟨rfl, rfl, rfl⟩
  · rw [if_pos h]
    exact ⟨log_message_proc .., log_message_live .., consumed_log_message ..⟩

theorem process_not_running_trace (w : World) (hq : w.proc.queue ≠ [])
    (hs : w.proc.state ≠ STATE_RUNNING)
    (hl : w.proc.config.enable_logging = true)
    (ho : w.proc.config.has_on_log = true) :
    (event_processor_process w).trace =
      w.trace ++ [trace_entry.log LOG_WARN log_msg.not_running] := by
  unfold event_processor_process
  split
  · rename_i hnil
    exact absurd hnil hq
  · rw [if_pos hs]
    unfold log_message
    rw [hl, ho]
    rfl

theorem iter_process_not_running (w : World) (hs : w.proc.state ≠ STATE_RUNNING) :
    ∀ n, (iter_process n w).proc = w.proc := by
  intro n
  induction n generalizing w with
  | zero => rfl
  | succ n ih =>
    have hframe := (process_not_running_frame w hs).1
    calc (iter_process (n + 1) w).proc
        = (iter_process n (event_processor_process w)).proc := rfl
      _ = (event_processor_process w).proc := ih _ (by rw [hframe]; exact hs)
      _ = w.proc := hframe

/-! Claim theorems. -/

/-- Claim C10: for every processor whose queue is empty, `process()`
returns immediately as a silent no-op — the whole world (queue, state,
counters, trace, allocations) is unchanged, so no warning is logged and
no callback is invoked — whatever the state is, because the
empty-queue check comes before the state check. -/
theorem process_on_empty_queue_is_silent (w : World) (h : w.proc.queue = []) :
    event_processor_process w = w :=
  process_empty w h

theorem process_on_empty_queue_is_silent_witness :
    event_processor_process w_empty = w_empty :=
  process_on_empty_queue_is_silent w_empty rfl

/-- Claim C9: the three queries are pure functions; on a null handle
they return the sentinels `"INVALID"`, `0` and `0`; on a valid handle
`getState()` returns exactly `"IDLE"`/`"RUNNING"`/`"STOPPED"` for the
three defined states and `"UNKNOWN"` for any unrecognised internal
value. -/
theorem queries_pure_and_sentinels (p : event_processor) (s : Nat)
    (h0 : s ≠ STATE_IDLE) (h1 : s ≠ STATE_RUNNING) (h2 : s ≠ STATE_STOPPED) :
    event_processor_get_state none = "INVALID" ∧
    event_processor_queue_size none = 0 ∧
    event_processor_events_processed none = 0 ∧
    event_processor_get_state (some p) = state_to_string p.state ∧
    event_processor_queue_size (some p) = p.queue_size ∧
    event_processor_events_processed (some p) = p.events_processed ∧
    state_to_string STATE_IDLE = "IDLE" ∧
    state_to_string STATE_RUNNING = "RUNNING" ∧
    state_to_string STATE_STOPPED = "STOPPED" ∧
    state_to_string s = "UNKNOWN" ∧
    (p.state = STATE_IDLE ∨ p.state = STATE_RUNNING ∨ p.state = STATE_STOPPED →
      event_processor_get_state (some p) = "IDLE" ∨
      event_processor_get_state (some p) = "RUNNING" ∨
      event_processor_get_state (some p) = "STOPPED") := by
  refine ⟨rfl, rfl, rfl, rfl, rfl, rfl, rfl, rfl, rfl, ?_, ?_⟩
  · unfold state_to_string
    rw [if_neg h0, if_neg h1, if_neg h2]
  · intro h
    rcases h with h | h | h
    · exact Or.inl (by show state_to_string p.state = _; rw [h]; rfl)
    · exact Or.inr (Or.inl (by show state_to_string p.state = _; rw [h]; rfl))
    · exact Or.inr (Or.inr (by show state_to_string p.state = _; rw [h]; rfl))

theorem queries_pure_and_sentinels_witness :
    event_processor_get_state none = "INVALID" ∧
    event_processor_queue_size none = 0 ∧
    event_processor_events_processed none = 0 ∧
    event_processor_get_state (some w_empty.proc) = state_to_string w_empty.proc.state ∧
    event_processor_queue_size (some w_empty.proc) = w_empty.proc.queue_size ∧
    event_processor_events_processed (some w_empty.proc) = w_empty.proc.events_processed ∧
    state_to_string STATE_IDLE = "IDLE" ∧
    state_to_string STATE_RUNNING = "RUNNING" ∧
    state_to_string STATE_STOPPED = "STOPPED" ∧
    state_to_string 7 = "UNKNOWN" ∧
    (w_empty.proc.state = STATE_IDLE ∨ w_empty.proc.state = STATE_RUNNING ∨
        w_empty.proc.state = STATE_STOPPED →
      event_processor_get_state (some w_empty.proc) = "IDLE" ∨
      event_processor_get_state (some w_empty.proc) = "RUNNING" ∨
      event_processor_get_state (some w_empty.proc) = "STOPPED") :=
  queries_pure_and_sentinels w_empty.proc 7 (by decide) (by decide) (by decide)

/-- Claim C7: while the state is `Idle` or `Stopped`, `process()`
performs no dequeue: queue contents, `queueSize()`,
`eventsProcessed()` and the state are unchanged, no allocation is
released, and the consume callback is never invoked. -/
theorem process_state_gating (w : World)
    (h : w.proc.state = STATE_IDLE ∨ w.proc.state = STATE_STOPPED) :
    (event_processor_process w).proc.queue = w.proc.queue ∧
    (event_processor_process w).proc.queue_size = w.proc.queue_size ∧
    (event_processor_process w).proc.events_processed = w.proc.events_processed ∧
    (event_processor_process w).proc.state = w.proc.state ∧
    (event_processor_process w).live = w.live ∧
    consumed (event_processor_process w).trace = consumed w.trace := by
  have hs : w.proc.state ≠ STATE_RUNNING := by
    rcases h with h | h <;> rw [h] <;> decide
  obtain ⟨hp, hl, hc⟩ := process_not_running_frame w hs
  exact ⟨by rw [hp], by rw [hp], by rw [hp], by rw [hp], hl, hc⟩

theorem process_state_gating_witness :
    (event_processor_process w_idle_one).proc.queue = w_idle_one.proc.queue ∧
    (event_processor_process w_idle_one).proc.queue_size = w_idle_one.proc.queue_size ∧
    (event_processor_process w_idle_one).proc.events_processed =
      w_idle_one.proc.events_processed ∧
    (event_processor_process w_idle_one).proc.state = w_idle_one.proc.state ∧
    (event_processor_process w_idle_one).live = w_idle_one.live ∧
    consumed (event_processor_process w_idle_one).trace = consumed w_idle_one.trace :=
  process_state_gating w_idle_one (Or.inl rfl)

theorem change_state_same (w : World) (s : Nat) (h : w.proc.state = s) :
    change_state w s = w := by
  unfold change_state
  rw [if_pos h]

theorem change_state_diff (w : World) (s : Nat) (hne : ¬ w.proc.state = s)
    (hl : w.proc.config.enable_logging = true)
    (ho : w.proc.config.has_on_log = true)
    (hsc : w.proc.config.has_on_state_change = true) :
    change_state w s =
      { proc := { w.proc with state := s }
        trace := w.trace ++
          [trace_entry.log LOG_INFO
             (log_msg.state_change_msg (state_to_string w.proc.state) (state_to_string s)),
           trace_entry.state_change (state_to_string w.proc.state) (state_to_string s)]
        live := w.live } := by
  simp only [change_state, log_message, hl, ho, hsc, if_neg hne, Bool.and_self, if_true,
    List.append_assoc, List.singleton_append, List.cons_append, List.nil_append]

theorem count_state_changes_append (a b : List trace_entry) :
    count_state_changes (a ++ b) =
      count_state_changes a + count_state_changes b := by
  unfold count_state_changes
  exact List.countP_append _ _ _

theorem count_state_changes_pair (level : String) (msg : log_msg) (o n : String) :
    count_state_changes
      [trace_entry.log level msg, trace_entry.state_change o n] = 1 := rfl

/-- Claim C8: a transition to the current state is a no-op (no log, no
notification), so `start()` twice fires the state-change hook exactly
once; an actual transition appends first the `INFO` log entry
describing old→new (computed from the pre-update state) and then the
`on_state_change` invocation, in that order. -/
theorem transition_noop_and_order (w : World)
    (hl : w.proc.config.enable_logging = true)
    (ho : w.proc.config.has_on_log = true)
    (hsc : w.proc.config.has_on_state_change = true) :
    change_state w w.proc.state = w ∧
    (event_processor_start w).trace =
      w.trace ++
        (if w.proc.state = STATE_RUNNING then []
         else
           [trace_entry.log LOG_INFO
              (log_msg.state_change_msg (state_to_string w.proc.state)
                (state_to_string STATE_RUNNING)),
            trace_entry.state_change (state_to_string w.proc.state)
              (state_to_string STATE_RUNNING)]) ∧
    count_state_changes (event_processor_start (event_processor_start w)).trace =
      count_state_changes w.trace +
        (if w.proc.state = STATE_RUNNING then 0 else 1) := by
  refine ⟨change_state_same w _ rfl, ?_, ?_⟩
  · by_cases hr : w.proc.state = STATE_RUNNING
    · rw [if_pos hr]
      show (change_state w STATE_RUNNING).trace = _
      rw [change_state_same w _ hr, List.append_nil]
    · rw [if_neg hr]
      show (change_state w STATE_RUNNING).trace = _
      rw [change_state_diff w _ hr hl ho hsc]
  · by_cases hr : w.proc.state = STATE_RUNNING
    · rw [if_pos hr]
      show count_state_changes
        (change_state (change_state w STATE_RUNNING) STATE_RUNNING).trace = _
      rw [change_state_same w _ hr, change_state_same w _ hr, Nat.add_zero]
    · rw [if_neg hr]
      show count_state_changes
        (change_state (change_state w STATE_RUNNING) STATE_RUNNING).trace = _
      rw [change_state_diff w _ hr hl ho hsc]
      rw [change_state_same _ _ rfl]
      rw [count_state_changes_append, count_state_changes_pair]

theorem transition_noop_and_order_witness :
    change_state w_empty w_empty.proc.state = w_empty ∧
    (event_processor_start w_empty).trace =
      w_empty.trace ++
        (if w_empty.proc.state = STATE_RUNNING then []
         else
           [trace_entry.log LOG_INFO
              (log_msg.state_change_msg (state_to_string w_empty.proc.state)
                (state_to_string STATE_RUNNING)),
            trace_entry.state_change (state_to_string w_empty.proc.state)
              (state_to_string STATE_RUNNING)]) ∧
    count_state_changes (event_processor_start (event_processor_start w_empty)).trace =
      count_state_changes w_empty.trace +
        (if w_empty.proc.state = STATE_RUNNING then 0 else 1) :=
  transition_noop_and_order w_empty rfl rfl rfl

theorem cap_full_cond (w : World) :
    (w.proc.config.max_queue_size > 0 &&
      decide (w.proc.queue_size ≥ w.proc.config.max_queue_size)) = true ↔
      cap_full w := by
  simp [cap_full]

theorem push_cap_full (plan : alloc_plan) (w : World) (type : event_type)
    (source : Option String) (data : Option (List Nat)) (data_len : Nat)
    (h : cap_full w) :
    event_processor_push plan w type source data data_len =
      (log_message w LOG_WARN (log_msg.queue_full w.proc.queue_size), false) := by
  simp only [event_processor_push]
  split
  · rfl
  · rename_i hc
    exact absurd ((cap_full_cond w).mpr h) hc

theorem push_node_fail (plan : alloc_plan) (w : World) (type : event_type)
    (source : Option String) (data : Option (List Nat)) (data_len : Nat)
    (h : ¬ cap_full w) (hn : plan.node_ok = false) :
    event_processor_push plan w type source data data_len = (w, false) := by
  simp only [event_processor_push]
  split
  · rename_i hc
    exact absurd ((cap_full_cond w).mp hc) h
  · rfl

theorem push_enqueue_spec (w : World) (e : event_t) :
    (push_enqueue w e).2 = true ∧
    (push_enqueue w e).1.proc.queue = w.proc.queue ++ [e] ∧
    (push_enqueue w e).1.proc.queue_size = w.proc.queue_size + 1 ∧
    (push_enqueue w e).1.proc.state = w.proc.state ∧
    (push_enqueue w e).1.proc.config = w.proc.config ∧
    (push_enqueue w e).1.proc.events_processed = w.proc.events_processed ∧
    (push_enqueue w e).1.live = w.live ∧
    consumed (push_enqueue w e).1.trace = consumed w.trace := by
  simp [push_enqueue, log_message_proc, log_message_live, consumed_log_message]

theorem push_plain_eq (plan : alloc_plan) (w : World) (type : event_type)
    (source : Option String) (data : Option (List Nat)) (data_len : Nat)
    (hcap : ¬ cap_full w) (hnode : plan.node_ok = true)
    (hf : w.proc.config.on_filter = none) :
    event_processor_push plan w type source data data_len =
      push_enqueue
        { w with live := w.live + node_allocs (build_event plan type source data data_len) }
        (build_event plan type source data data_len) := by
  simp only [event_processor_push]
  split
  · rename_i hc
    exact absurd ((cap_full_cond w).mp hc) hcap
  · rw [if_neg (by rw [hnode]; decide)]
    rw [hf]

theorem push_filtered_eq (plan : alloc_plan) (w : World) (f : event_t → Bool)
    (type : event_type) (source : Option String) (data : Option (List Nat))
    (data_len : Nat)
    (hcap : ¬ cap_full w) (hnode : plan.node_ok = true)
    (hf : w.proc.config.on_filter = some f)
    (hrej : f (build_event plan type source data data_len) = false) :
    event_processor_push plan w type source data data_len =
      ({ log_message
          { w with live := w.live + node_allocs (build_event plan type source data data_len) }
          LOG_DEBUG log_msg.event_filtered with
          live := w.live }, true) := by
  simp only [event_processor_push]
  split
  · rename_i hc
    exact absurd ((cap_full_cond w).mp hc) hcap
  · rw [if_neg (by rw [hnode]; decide)]
    rw [hf]
    simp only []
    rw [if_pos hrej]
    simp only [log_message_live, Nat.add_sub_cancel]

theorem process_running_spec (w : World) (e : event_t) (rest : List event_t)
    (hq : w.proc.queue = e :: rest) (hs : w.proc.state = STATE_RUNNING)
    (he : w.proc.config.has_on_event = true) :
    (event_processor_process w).proc.queue = rest ∧
    (event_processor_process w).proc.queue_size = w.proc.queue_size - 1 ∧
    (event_processor_process w).proc.state = w.proc.state ∧
    (event_processor_process w).proc.config = w.proc.config ∧
    (event_processor_process w).proc.events_processed = w.proc.events_processed + 1 ∧
    consumed (event_processor_process w).trace = consumed w.trace ++ [e] := by
  simp only [event_processor_process]
  split
  · rename_i hnil
    rw [hq] at hnil
    cases hnil
  · rename_i node rest2 heq
    rw [hq] at heq
    injection heq with h1 h2
    subst h1
    subst h2
    rw [if_neg (not_not_intro hs)]
    simp [log_message_proc, log_message_live, consumed_log_message, he,
      consumed_append, consumed_consume]

theorem process_queue_size_le (w : World) :
    (event_processor_process w).proc.queue_size ≤ w.proc.queue_size := by
  simp only [event_processor_process]
  split
  · exact Nat.le_refl _
  · split
    · rw [log_message_proc]
    · split <;> (simp only [log_message_proc]; exact Nat.sub_le _ _)

theorem clear_queue_size (w : World) :
    (event_processor_clear_queue w).proc.queue_size = 0 := by
  simp only [event_processor_clear_queue]
  split
  · rw [log_message_proc]
  · rfl

theorem push_node_ok_true (plan : alloc_plan) (w : World) (type : event_type)
    (source : Option String) (data : Option (List Nat)) (data_len : Nat)
    (hcap : ¬ cap_full w) (hnode : plan.node_ok = true) :
    (event_processor_push plan w type source data data_len).2 = true := by
  simp only [event_processor_push]
  split
  · rename_i hc
    exact absurd ((cap_full_cond w).mp hc) hcap
  · rw [if_neg (by rw [hnode]; decide)]
    split
    · split <;> rfl
    · rfl

/-- Claim C5: with `maxQueueSize = K > 0` and no filter, a push onto a
queue already holding `K` events fails and leaves `queueSize()` at `K`;
the enqueue step fails exactly when `size ≥ K`; and `size ≤ K` is
preserved by `push`, `process` and `clearQueue`. -/
theorem push_capacity_enforced (w : World) (plan : alloc_plan) (K : Nat)
    (type : event_type) (source : Option String) (data : Option (List Nat))
    (data_len : Nat)
    (hK : 0 < K) (hcap : w.proc.config.max_queue_size = K)
    (hnode : plan.node_ok = true) (hfil : w.proc.config.on_filter = none) :
    ((event_processor_push plan w type source data data_len).2 = false ↔
      K ≤ w.proc.queue_size) ∧
    (w.proc.queue_size = K →
      (event_processor_push plan w type source data data_len).2 = false ∧
      (event_processor_push plan w type source data data_len).1.proc.queue_size = K) ∧
    (w.proc.queue_size ≤ K →
      (event_processor_push plan w type source data data_len).1.proc.queue_size ≤ K) ∧
    (event_processor_process w).proc.queue_size ≤ w.proc.queue_size ∧
    (event_processor_clear_queue w).proc.queue_size = 0 := by
  by_cases hfull : K ≤ w.proc.queue_size
  · have hcf : cap_full w := ⟨by rw [hcap]; exact hK, by rw [hcap]; exact hfull⟩
    rw [push_cap_full plan w type source data data_len hcf]
    refine ⟨⟨fun _ => hfull, fun _ => rfl⟩, fun hK2 => ⟨rfl, ?_⟩, fun hle => ?_,
      process_queue_size_le w, clear_queue_size w⟩
    · show (log_message w LOG_WARN _).proc.queue_size = K
      rw [log_message_proc, hK2]
    · show (log_message w LOG_WARN _).proc.queue_size ≤ K
      rw [log_message_proc]
      exact hle
  · have hcf : ¬ cap_full w := fun h => hfull (hcap ▸ h.2)
    rw [push_plain_eq plan w type source data data_len hcf hnode hfil]
    obtain ⟨h2, hqueue, hsize, _, _, _, _, _⟩ :=
      push_enqueue_spec
        { w with
          live := w.live + node_allocs (build_event plan type source data data_len) }
        (build_event plan type source data data_len)
    refine ⟨⟨fun hf => absurd (hf ▸ h2) (by decide), fun hle => absurd hle hfull⟩,
      fun hK2 => absurd (hK2 ▸ Nat.le_refl K) hfull, fun _ => ?_,
      process_queue_size_le w, clear_queue_size w⟩
    rw [hsize]
    show w.proc.queue_size + 1 ≤ K
    omega

theorem push_capacity_enforced_witness :
    ((event_processor_push good_plan w_cap_full event_type.data none none 0).2 = false ↔
      2 ≤ w_cap_full.proc.queue_size) ∧
    (w_cap_full.proc.queue_size = 2 →
      (event_processor_push good_plan w_cap_full event_type.data none none 0).2 = false ∧
      (event_processor_push good_plan w_cap_full event_type.data none none
          0).1.proc.queue_size = 2) ∧
    (w_cap_full.proc.queue_size ≤ 2 →
      (event_processor_push good_plan w_cap_full event_type.data none none
          0).1.proc.queue_size ≤ 2) ∧
    (event_processor_process w_cap_full).proc.queue_size ≤ w_cap_full.proc.queue_size ∧
    (event_processor_clear_queue w_cap_full).proc.queue_size = 0 :=
  push_capacity_enforced w_cap_full good_plan 2 event_type.data none none 0
    (by decide) rfl rfl rfl

/-- Claim C3 (amended): `push()` returns false exactly when the
capacity is exceeded or the node allocation fails; in every false case
no event is admitted, the queue and the processor are unchanged and no
allocation is leaked.  A failed source-copy or payload-copy allocation
does not make `push` fail: the event is still admitted with the
corresponding field absent. -/
theorem push_failure_exact (w : World) (plan : alloc_plan) (type : event_type)
    (source : Option String) (data : Option (List Nat)) (data_len : Nat) :
    ((event_processor_push plan w type source data data_len).2 = false ↔
      cap_full w ∨ (¬ cap_full w ∧ plan.node_ok = false)) ∧
    ((event_processor_push plan w type source data data_len).2 = false →
      (event_processor_push plan w type source data data_len).1.proc = w.proc ∧
      (event_processor_push plan w type source data data_len).1.live = w.live) := by
  by_cases hc : cap_full w
  · rw [push_cap_full plan w type source data data_len hc]
    exact ⟨⟨fun _ => Or.inl hc, fun _ => rfl⟩,
      fun _ => ⟨log_message_proc .., log_message_live ..⟩⟩
  · cases hb : plan.node_ok with
    | false =>
      rw [push_node_fail plan w type source data data_len hc hb]
      exact ⟨⟨fun _ => Or.inr ⟨hc, rfl⟩, fun _ => rfl⟩, fun _ => ⟨rfl, rfl⟩⟩
    | true =>
      have ht := push_node_ok_true plan w type source data data_len hc hb
      rw [ht]
      refine ⟨⟨fun hf => absurd hf (by decide), fun hor => ?_⟩,
        fun hf => absurd hf (by decide)⟩
      rcases hor with hor | hor
      · exact absurd hor hc
      · exact absurd hor.2 (by decide)

theorem push_failure_exact_witness :
    ((event_processor_push good_plan w_cap_full event_type.data none none 0).2 = false ↔
      cap_full w_cap_full ∨
        (¬ cap_full w_cap_full ∧ good_plan.node_ok = false)) ∧
    ((event_processor_push good_plan w_cap_full event_type.data none none 0).2 = false →
      (event_processor_push good_plan w_cap_full event_type.data none none 0).1.proc =
        w_cap_full.proc ∧
      (event_processor_push good_plan w_cap_full event_type.data none none 0).1.live =
        w_cap_full.live) :=
  push_failure_exact w_cap_full good_plan event_type.data none none 0

theorem push_source_alloc_failure_tolerated :
    bad_src_plan.source_ok = false ∧
    (event_processor_push bad_src_plan w_empty event_type.data (some srcA) none 0).2 =
      true ∧
    (event_processor_push bad_src_plan w_empty event_type.data (some srcA) none
        0).1.proc.queue_size = 1 ∧
    (event_processor_push bad_src_plan w_empty event_type.data (some srcA) none
        0).1.proc.queue =
      [{ type := event_type.data, source := none, data := none, data_len := 0 }] := by
  refine ⟨rfl, rfl, rfl, ?_⟩
  rfl

/-- Claim C6: a push whose filter rejects the candidate returns `true`,
leaves the processor (queue, size, counters, state) unchanged, releases
the candidate's allocations, and never invokes the consume callback —
indistinguishable from a queued push by the return value. -/
theorem filter_transparency (w : World) (plan : alloc_plan) (f : event_t → Bool)
    (type : event_type) (source : Option String) (data : Option (List Nat))
    (data_len : Nat)
    (hcap : ¬ cap_full w) (hnode : plan.node_ok = true)
    (hf : w.proc.config.on_filter = some f)
    (hrej : f (build_event plan type source data data_len) = false) :
    (event_processor_push plan w type source data data_len).2 = true ∧
    (event_processor_push plan w type source data data_len).1.proc = w.proc ∧
    (event_processor_push plan w type source data data_len).1.live = w.live ∧
    consumed (event_processor_push plan w type source data data_len).1.trace =
      consumed w.trace := by
  rw [push_filtered_eq plan w f type source data data_len hcap hnode hf hrej]
  refine ⟨rfl, ?_, rfl, ?_⟩
  · show (log_message _ _ _).proc = w.proc
    rw [log_message_proc]
  · show consumed (log_message _ _ _).trace = consumed w.trace
    rw [consumed_log_message]

theorem filter_transparency_witness :
    (event_processor_push good_plan w_filter event_type.error none none 0).2 = true ∧
    (event_processor_push good_plan w_filter event_type.error none none 0).1.proc =
      w_filter.proc ∧
    (event_processor_push good_plan w_filter event_type.error none none 0).1.live =
      w_filter.live ∧
    consumed (event_processor_push good_plan w_filter event_type.error none none
        0).1.trace =
      consumed w_filter.trace :=
  filter_transparency w_filter good_plan reject_all event_type.error none none 0
    (by decide) rfl rfl rfl

theorem copy_data_inv (plan : alloc_plan) (data : Option (List Nat)) (data_len : Nat) :
    ((copy_data plan data data_len).isSome → data_len > 0) ∧
    (data_len = 0 → copy_data plan data data_len = none) := by
  unfold copy_data
  cases data with
  | none => exact ⟨fun h => Bool.noConfusion h, fun _ => rfl⟩
  | some bytes =>
    simp only []
    split
    · rename_i hcond
      simp only [Bool.and_eq_true, decide_eq_true_eq] at hcond
      refine ⟨fun _ => hcond.1, fun h0 => ?_⟩
      rw [h0] at hcond
      exact absurd hcond.1 (Nat.lt_irrefl 0)
    · exact ⟨fun h => Bool.noConfusion h, fun _ => rfl⟩

theorem build_event_inv (plan : alloc_plan) (type : event_type)
    (source : Option String) (data : Option (List Nat)) (data_len : Nat) :
    event_inv (build_event plan type source data data_len) :=
  ⟨(copy_data_inv plan data data_len).1, fun h0 => (copy_data_inv plan data data_len).2 h0⟩

theorem push_queue_cases (plan : alloc_plan) (w : World) (type : event_type)
    (source : Option String) (data : Option (List Nat)) (data_len : Nat) :
    (event_processor_push plan w type source data data_len).1.proc.queue =
        w.proc.queue ∨
    (event_processor_push plan w type source data data_len).1.proc.queue =
        w.proc.queue ++ [build_event plan type source data data_len] := by
  simp only [event_processor_push]
  split
  · left
    rw [log_message_proc]
  · split
    · left
      rfl
    · split
      · split
        · left
          show (log_message _ _ _).proc.queue = w.proc.queue
          rw [log_message_proc]
        · right
          exact (push_enqueue_spec _ _).2.1
      · right
        exact (push_enqueue_spec _ _).2.1

theorem consume_mem_iff (e : event_t) (tr : List trace_entry) :
    trace_entry.consume e ∈ tr ↔ e ∈ consumed tr := by
  unfold consumed
  rw [List.mem_filterMap]
  constructor
  · intro h
    exact ⟨_, h, rfl⟩
  · rintro ⟨t, ht, hmatch⟩
    cases t with
    | log l m => cases hmatch
    | state_change o n => cases hmatch
    | consume e2 =>
      injection hmatch with h2
      rw [← h2]
      exact ht

theorem process_consumed_cases (w : World) :
    consumed (event_processor_process w).trace = consumed w.trace ∨
    ∃ hd rest, w.proc.queue = hd :: rest ∧
      consumed (event_processor_process w).trace = consumed w.trace ++ [hd] := by
  simp only [event_processor_process]
  split
  · left
    rfl
  · rename_i hd rest heq
    split
    · left
      exact consumed_log_message ..
    · split
      · right
        refine ⟨hd, rest, heq, ?_⟩
        simp only [consumed_append, consumed_consume, consumed_log_message]
      · left
        simp only [consumed_log_message]

/-- Claim C2: every event the queue holds or hands to a callback
satisfies the payload invariant (payload present implies positive
length; zero length implies absent payload): the candidate `push`
builds satisfies it for every combination of caller-supplied pointer
and length — including an absent `data` with `data_len > 0` — the queue
invariant is preserved by `push`, and every event newly delivered to
the consume hook by `process` comes from the queue and satisfies it. -/
theorem event_payload_invariant (w : World) (plan : alloc_plan) (type : event_type)
    (source : Option String) (data : Option (List Nat)) (data_len : Nat)
    (hq : ∀ e ∈ w.proc.queue, event_inv e) :
    event_inv (build_event plan type source data data_len) ∧
    (∀ e ∈ (event_processor_push plan w type source data data_len).1.proc.queue,
      event_inv e) ∧
    (∀ e, trace_entry.consume e ∈ (event_processor_process w).trace →
      trace_entry.consume e ∈ w.trace ∨ event_inv e) := by
  refine ⟨build_event_inv plan type source data data_len, ?_, ?_⟩
  · rcases push_queue_cases plan w type source data data_len with hcase | hcase <;>
      rw [hcase]
    · exact hq
    · intro e he
      rcases List.mem_append.mp he with he | he
      · exact hq e he
      · rw [List.mem_singleton.mp he]
        exact build_event_inv plan type source data data_len
  · intro e he
    rw [consume_mem_iff] at he
    rcases process_consumed_cases w with hcase | ⟨hd, rest, hqeq, hcase⟩ <;>
      rw [hcase] at he
    · left
      rw [consume_mem_iff]
      exact he
    · rcases List.mem_append.mp he with he | he
      · left
        rw [consume_mem_iff]
        exact he
      · right
        rw [List.mem_singleton.mp he]
        exact hq hd (by rw [hqeq]; exact List.mem_cons_self hd rest)

theorem event_payload_invariant_witness :
    event_inv (build_event good_plan event_type.data none none 5) ∧
    (∀ e ∈ (event_processor_push good_plan w_empty event_type.data none none
        5).1.proc.queue, event_inv e) ∧
    (∀ e, trace_entry.consume e ∈ (event_processor_process w_empty).trace →
      trace_entry.consume e ∈ w_empty.trace ∨ event_inv e) :=
  event_payload_invariant w_empty good_plan event_type.data none none 5
    (fun e he => absurd he (List.not_mem_nil e))

theorem push_list_spec (L : List push_input) : ∀ w : World,
    w.proc.config.on_filter = none → w.proc.config.max_queue_size = 0 →
    (push_list w L).proc.queue = w.proc.queue ++ L.map built ∧
    (push_list w L).proc.state = w.proc.state ∧
    (push_list w L).proc.config = w.proc.config ∧
    consumed (push_list w L).trace = consumed w.trace ∧
    push_list_ok w L = true := by
  induction L with
  | nil =>
    intro w hf hc
    exact ⟨by rw [List.map_nil, List.append_nil]; rfl, rfl, rfl, rfl, rfl⟩
  | cons i rest ih =>
    intro w hf hc
    have hcap : ¬ cap_full w := fun h => by
      unfold cap_full at h
      rw [hc] at h
      exact absurd h.1 (Nat.lt_irrefl 0)
    have heq := push_plain_eq good_plan w i.type i.source i.data i.data_len hcap rfl hf
    obtain ⟨hr2, hrq, hrsize, hrst, hrcf, _, _, hrtr⟩ :=
      push_enqueue_spec
        { w with live := w.live + node_allocs (build_event good_plan i.type i.source i.data i.data_len) }
        (build_event good_plan i.type i.source i.data i.data_len)
    obtain ⟨ihq, ihst, ihcf, ihtr, ihok⟩ :=
      ih (event_processor_push good_plan w i.type i.source i.data i.data_len).1
        (by rw [heq, hrcf]; exact hf) (by rw [heq, hrcf]; exact hc)
    refine ⟨?_, ?_, ?_, ?_, ?_⟩
    · show (push_list (event_processor_push good_plan w i.type i.source i.data i.data_len).1 rest).proc.queue = _
      rw [ihq, heq, hrq]
      show (w.proc.queue ++ [built i]) ++ rest.map built = _
      rw [List.append_assoc, List.singleton_append, ← List.map_cons]
    · show (push_list (event_processor_push good_plan w i.type i.source i.data i.data_len).1 rest).proc.state = _
      rw [ihst, heq, hrst]
    · show (push_list (event_processor_push good_plan w i.type i.source i.data i.data_len).1 rest).proc.config = _
      rw [ihcf, heq, hrcf]
    · show consumed (push_list (event_processor_push good_plan w i.type i.source i.data i.data_len).1 rest).trace = _
      rw [ihtr, heq, hrtr]
    · show ((event_processor_push good_plan w i.type i.source i.data i.data_len).2 &&
        push_list_ok (event_processor_push good_plan w i.type i.source i.data i.data_len).1 rest) = true
      rw [ihok, heq, hr2]
      rfl

theorem process_drain_spec (q : List event_t) : ∀ w : World,
    w.proc.queue = q → w.proc.state = STATE_RUNNING →
    w.proc.config.has_on_event = true →
    (iter_process q.length w).proc.queue = [] ∧
    consumed (iter_process q.length w).trace = consumed w.trace ++ q := by
  induction q with
  | nil =>
    intro w hq hs he
    exact ⟨hq, (List.append_nil _).symm⟩
  | cons e rest ih =>
    intro w hq hs he
    obtain ⟨h1, h2, h3, h4, h5, h6⟩ := process_running_spec w e rest hq hs he
    obtain ⟨ih1, ih2⟩ :=
      ih (event_processor_process w) h1 (by rw [h3]; exact hs) (by rw [h4]; exact he)
    refine ⟨ih1, ?_⟩
    show consumed (iter_process rest.length (event_processor_process w)).trace = _
    rw [ih2, h6, List.append_assoc, List.singleton_append]

/-- Claim C4: for any sequence of caller inputs pushed onto an empty
`Running` processor with no filter and no capacity bound, every push
succeeds, and draining the queue with one `process()` call per event
delivers the events to the consume hook in exactly the push order
(FIFO), ending with an empty queue. -/
theorem fifo_order (w : World) (L : List push_input)
    (hq : w.proc.queue = []) (hs : w.proc.state = STATE_RUNNING)
    (hf : w.proc.config.on_filter = none) (hc : w.proc.config.max_queue_size = 0)
    (he : w.proc.config.has_on_event = true) :
    push_list_ok w L = true ∧
    consumed (iter_process L.length (push_list w L)).trace =
      consumed w.trace ++ L.map built ∧
    (iter_process L.length (push_list w L)).proc.queue = [] := by
  obtain ⟨hq2, hst2, hcf2, htr2, hok⟩ := push_list_spec L w hf hc
  have hq3 : (push_list w L).proc.queue = L.map built := by
    rw [hq2, hq, List.nil_append]
  obtain ⟨hdrain, hcons⟩ :=
    process_drain_spec (L.map built) (push_list w L) hq3
      (by rw [hst2]; exact hs) (by rw [hcf2]; exact he)
  have hlen : (L.map built).length = L.length := List.length_map L built
  rw [hlen] at hdrain hcons
  exact ⟨hok, by rw [hcons, htr2], hdrain⟩

theorem fifo_order_witness :
    push_list_ok w_running sample_inputs = true ∧
    consumed (iter_process sample_inputs.length
        (push_list w_running sample_inputs)).trace =
      consumed w_running.trace ++ sample_inputs.map built ∧
    (iter_process sample_inputs.length
        (push_list w_running sample_inputs)).proc.queue = [] :=
  fifo_order w_running sample_inputs rfl rfl rfl rfl rfl

theorem process_all_go_not_running (fuel : Nat) : ∀ (w : World) (count : Nat),
    w.proc.state ≠ STATE_RUNNING → w.proc.queue ≠ [] →
    process_all_go fuel w count = none := by
  induction fuel with
  | zero =>
    intro w count hs hq
    simp only [process_all_go]
    rw [if_neg hq]
  | succ fuel ih =>
    intro w count hs hq
    simp only [process_all_go]
    rw [if_neg hq]
    have hframe := (process_not_running_frame w hs).1
    exact ih (event_processor_process w) (count + 1)
      (by rw [hframe]; exact hs) (by rw [hframe]; exact hq)

theorem process_all_empty_queue (w : World) (h : w.proc.queue = []) (fuel : Nat) :
    event_processor_process_all fuel w = some w := by
  have hgo : process_all_go fuel w 0 = some (w, 0) := by
    cases fuel <;> (simp only [process_all_go]; rw [if_pos h])
  unfold event_processor_process_all
  rw [hgo]
  rfl

theorem iter_process_warn_trace (n : Nat) : ∀ w : World,
    w.proc.state ≠ STATE_RUNNING → w.proc.queue ≠ [] →
    w.proc.config.enable_logging = true → w.proc.config.has_on_log = true →
    (iter_process n w).trace =
      w.trace ++ List.replicate n (trace_entry.log LOG_WARN log_msg.not_running) := by
  induction n with
  | zero =>
    intro w hs hq hl ho
    exact (List.append_nil _).symm
  | succ n ih =>
    intro w hs hq hl ho
    have hframe := (process_not_running_frame w hs).1
    have htr := process_not_running_trace w hq hs hl ho
    show (iter_process n (event_processor_process w)).trace = _
    rw [ih (event_processor_process w) (by rw [hframe]; exact hs)
        (by rw [hframe]; exact hq) (by rw [hframe]; exact hl)
        (by rw [hframe]; exact ho), htr,
      List.append_assoc, List.singleton_append, ← List.replicate_succ]

theorem process_all_not_running_diverges :
    ¬ process_all_terminates w_idle_one := by
  rintro ⟨n, hn⟩
  rw [iter_process_not_running w_idle_one (by decide) n] at hn
  exact absurd hn (by decide)

/-- Claim C1 (amended): while the state is not `Running`, `processAll()`
terminates with zero iterations only when the queue is already empty
(returning with no processing and no summary log); when the queue is
non-empty the `while` loop never terminates — the fueled loop returns
`none` for every fuel bound and no number of iterations empties the
queue — and each inner `process()` call logs its own warning, one per
iteration, when logging is enabled with the hook set. -/
theorem process_all_not_running_behavior (w : World)
    (hs : w.proc.state ≠ STATE_RUNNING) :
    (w.proc.queue = [] →
      ∀ fuel, event_processor_process_all fuel w = some w) ∧
    (w.proc.queue ≠ [] →
      (∀ fuel, event_processor_process_all fuel w = none) ∧
      ¬ process_all_terminates w) ∧
    (w.proc.queue ≠ [] → w.proc.config.enable_logging = true →
      w.proc.config.has_on_log = true →
      ∀ n, (iter_process n w).trace =
        w.trace ++ List.replicate n (trace_entry.log LOG_WARN log_msg.not_running)) := by
  refine ⟨fun hq fuel => process_all_empty_queue w hq fuel, fun hq => ⟨?_, ?_⟩,
    fun hq hl ho n => iter_process_warn_trace n w hs hq hl ho⟩
  · intro fuel
    unfold event_processor_process_all
    rw [process_all_go_not_running fuel w 0 hs hq]
  · rintro ⟨n, hn⟩
    rw [iter_process_not_running w hs n] at hn
    exact hq hn

theorem process_all_not_running_behavior_witness :
    (w_idle_one.proc.queue = [] →
      ∀ fuel, event_processor_process_all fuel w_idle_one = some w_idle_one) ∧
    (w_idle_one.proc.queue ≠ [] →
      (∀ fuel, event_processor_process_all fuel w_idle_one = none) ∧
      ¬ process_all_terminates w_idle_one) ∧
    (w_idle_one.proc.queue ≠ [] → w_idle_one.proc.config.enable_logging = true →
      w_idle_one.proc.config.has_on_log = true →
      ∀ n, (iter_process n w_idle_one).trace =
        w_idle_one.trace ++
          List.replicate n (trace_entry.log LOG_WARN log_msg.not_running)) :=
  process_all_not_running_behavior w_idle_one (by decide)

end Eventlib
